import Mathlib

/-! # cmdmain: subcommand dispatch over package flag

A shallow embedding of `cmdmain.go` and `flag.go`.

* Go strings are Lean strings; byte-wise comparison of valid UTF-8 agrees with
  the code-point order of `String`.
* The process-wide variables `Globals`, `cmds` and `funcFlags` are the fields of
  an explicit `State`; `os.Args` is the program name `prog` together with the
  argument vector `argv` (that is, `os.Args[1:]`).
* `os.Exit` and `panic` end the run: every function that can reach them returns
  a `Result` carrying how the run ended, what was written to standard error and
  which handlers were invoked.
* The part of the standard package `flag` that the code calls (declaring
  options, `Parse`, `Args`, `VisitAll`, `PrintDefaults`) is embedded in the
  first section; only the quoting of package fmt is left open.
-/

set_option autoImplicit false
set_option linter.dupNamespace false

namespace cmdmain

/-! ## Package flag -/

/-- A declared flag. `Set` is the `Set` method of the flag's value: the text of
the error, or the text of the value now stored. `IsBoolFlag` tells whether the
value is a boolean flag, which takes no separate argument. The last three
fields describe the type of the value as `PrintDefaults` reads it: the name
`UnquoteUsage` gives the type (string, int, ..., value when it knows none),
the text of the zero value of the type, and whether it is a string value. -/
structure Flag where
  Name : String
  Usage : String
  DefValue : String
  IsBoolFlag : Bool
  Set : String → Except String String
  TypeName : String
  Zero : String
  IsString : Bool

/-- The rendering of the standard library that is left open: the verb `%q` of
package fmt, which quotes a text as a Go string literal. -/
structure Lib where
  quote : String → String

/-- A flag set. `formal` holds the declared flags (a map keyed by name in Go,
here in order of declaration); `actual` holds the flags set by `Parse` with the
value stored in each, newest first; `args` are the arguments left after the
flags. -/
structure FlagSet where
  name : String
  formal : List Flag
  actual : List (String × String)
  args : List String
  parsed : Bool

/-- An error returned by `Parse`: the distinguished `ErrHelp`, or an error made
by `failf` from a message. -/
inductive FlagError where
  | ErrHelp
  | failed (msg : String)
deriving DecidableEq, Repr

/-- The method `Error` of a parse error. -/
def FlagError.Error : FlagError → String
  | .ErrHelp => "flag: help requested"
  | .failed msg => msg

/-- What package flag wrote to its output by the time it returns the error:
`failf` writes the message and a newline, the help request writes nothing. -/
def FlagError.written : FlagError → String
  | .ErrHelp => ""
  | .failed msg => msg ++ "\n"

/-- What `Parse` gives back: the flag set as it left it, the error (none for
nil), and the text it wrote to the output of the set, which is standard
error. -/
structure ParseResult where
  fs : FlagSet
  err : Option FlagError
  out : String

/-- The constructor `flag.NewFlagSet(name, ContinueOnError)`. -/
def NewFlagSet (name : String) : FlagSet :=
  { name := name, formal := [], actual := [], args := [], parsed := false }

/-- The lookup `f.formal[name]`. -/
def FlagSet.lookupFormal (f : FlagSet) (name : String) : Option Flag :=
  f.formal.find? (fun x => x.Name == name)

/-- Record that flag `name` was set and now stores `v`. -/
def FlagSet.store (f : FlagSet) (name v : String) : FlagSet :=
  { f with actual := (name, v) :: f.actual }

/-- The value stored in flag `name`: the last one set, else the default. -/
def FlagSet.value (f : FlagSet) (name : String) : Option String :=
  match f.actual.lookup name with
  | some v => some v
  | none => (f.lookupFormal name).map (fun x => x.DefValue)

/-- The method `f.Args()`. -/
def FlagSet.Args (f : FlagSet) : List String := f.args

/-- The function `strconv.ParseBool`. -/
def parseBool (s : String) : Option Bool :=
  if s = "1" ∨ s = "t" ∨ s = "T" ∨ s = "TRUE" ∨ s = "true" ∨ s = "True" then some true
  else if s = "0" ∨ s = "f" ∨ s = "F" ∨ s = "FALSE" ∨ s = "false" ∨ s = "False" then some false
  else none

/-- The method `Set` of a boolean value. -/
def boolSet (s : String) : Except String String :=
  match parseBool s with
  | some true => .ok "true"
  | some false => .ok "false"
  | none => .error "parse error"

/-- The method `Set` of a string value. -/
def stringSet (s : String) : Except String String := .ok s

/-- The method `f.Var(value, name, usage)`: none when it panics, which it does
when the name begins with a minus sign, contains an equals sign, or is already
declared. -/
def FlagSet.Var (f : FlagSet) (fl : Flag) : Option FlagSet :=
  if fl.Name.data.head? = some '-' then none
  else if '=' ∈ fl.Name.data then none
  else if (f.lookupFormal fl.Name).isSome then none
  else some { f with formal := f.formal ++ [fl] }

/-- The method `f.BoolVar(p, name, value, usage)`. -/
def FlagSet.BoolVar (f : FlagSet) (name : String) (value : Bool) (usage : String) :
    Option FlagSet :=
  f.Var { Name := name, Usage := usage, DefValue := if value then "true" else "false",
          IsBoolFlag := true, Set := boolSet, TypeName := "value", Zero := "false",
          IsString := false }

/-- The method `f.StringVar(p, name, value, usage)`. -/
def FlagSet.StringVar (f : FlagSet) (name : String) (value : String) (usage : String) :
    Option FlagSet :=
  f.Var { Name := name, Usage := usage, DefValue := value,
          IsBoolFlag := false, Set := stringSet, TypeName := "string", Zero := "",
          IsString := true }

/-- How `parseOne` reads the first argument. -/
inductive Token where
  | positional
  | terminator
  | bad
  | flag (name : String) (hasValue : Bool) (value : String)
deriving DecidableEq, Repr

/-- The part of `parseOne` that reads `name := s[numMinuses:]`: the name must
not be empty nor begin with a minus or equals sign; an equals sign after the
first character splits name and value. -/
def tokenName : List Char → Token
  | [] => .bad
  | c :: tl =>
    if c = '-' ∨ c = '=' then .bad
    else
      match tl.span (fun x => x != '=') with
      | (pre, _ :: v) => .flag (String.mk (c :: pre)) true (String.mk v)
      | (_, []) => .flag (String.mk (c :: tl)) false ""

/-- The head of `parseOne`: an argument shorter than two bytes or not starting
with a minus sign is not a flag; two minus signs alone end the flags. -/
def classify (s : String) : Token :=
  match s.data with
  | ['-', '-'] => .terminator
  | '-' :: '-' :: name => tokenName name
  | '-' :: c :: name => tokenName (c :: name)
  | _ => .positional

/-- The method `failf`: write the message and a newline to the output, call the
usage function of the set (empty throughout this package), return the error. -/
def failf (f : FlagSet) (msg : String) : ParseResult :=
  { fs := f, err := some (.failed msg), out := msg ++ "\n" }

/-- The loop of `Parse` around `parseOne`, under `ContinueOnError`: flags are
consumed one by one until an argument is not a flag, the arguments run out, or
an error is returned. -/
def FlagSet.parseArgs (lib : Lib) : List String → FlagSet → ParseResult
  | [], f => { fs := { f with args := [] }, err := none, out := "" }
  | s :: rest, f =>
    match classify s with
    | .positional => { fs := { f with args := s :: rest }, err := none, out := "" }
    | .terminator => { fs := { f with args := rest }, err := none, out := "" }
    | .bad => failf { f with args := s :: rest } ("bad flag syntax: " ++ s)
    | .flag name hasValue value =>
      match f.lookupFormal name with
      | none =>
        if name = "help" ∨ name = "h" then
          { fs := { f with args := rest }, err := some .ErrHelp, out := "" }
        else
          failf { f with args := rest } ("flag provided but not defined: -" ++ name)
      | some fl =>
        if fl.IsBoolFlag then
          if hasValue then
            match fl.Set value with
            | .error e =>
              failf { f with args := rest }
                ("invalid boolean value " ++ lib.quote value ++ " for -" ++ name ++ ": " ++ e)
            | .ok v => FlagSet.parseArgs lib rest (f.store name v)
          else
            match fl.Set "true" with
            | .error e =>
              failf { f with args := rest } ("invalid boolean flag " ++ name ++ ": " ++ e)
            | .ok v => FlagSet.parseArgs lib rest (f.store name v)
        else if hasValue then
          match fl.Set value with
          | .error e =>
            failf { f with args := rest }
              ("invalid value " ++ lib.quote value ++ " for flag -" ++ name ++ ": " ++ e)
          | .ok v => FlagSet.parseArgs lib rest (f.store name v)
        else
          match rest with
          | [] => failf { f with args := [] } ("flag needs an argument: -" ++ name)
          | a :: rest2 =>
            match fl.Set a with
            | .error e =>
              failf { f with args := rest2 }
                ("invalid value " ++ lib.quote a ++ " for flag -" ++ name ++ ": " ++ e)
            | .ok v => FlagSet.parseArgs lib rest2 (f.store name v)

/-- The method `f.Parse(arguments)`. -/
def FlagSet.Parse (lib : Lib) (f : FlagSet) (arguments : List String) : ParseResult :=
  FlagSet.parseArgs lib arguments { f with parsed := true, args := arguments }

/-- The comparison `a < b` of two Go strings: lexicographic order. -/
def stringLess (a b : String) : Prop := a.data < b.data

instance stringLess.dec (a b : String) : Decidable (stringLess a b) := by
  unfold stringLess; infer_instance

/-- The comparison `a <= b` of two Go strings. -/
def stringLE (a b : String) : Prop := ¬ stringLess b a

instance stringLE.dec (a b : String) : Decidable (stringLE a b) := by
  unfold stringLE; infer_instance

/-- The function `sort.Strings`: the strings in increasing order. -/
def sortStrings (l : List String) : List String :=
  l.insertionSort stringLE

/-- The method `f.VisitAll`: the declared flags in increasing order of name. -/
def FlagSet.VisitAll (f : FlagSet) : List Flag :=
  f.formal.insertionSort (fun a b => stringLE a.Name b.Name)

/-- The function `UnquoteUsage`: the name of the value and the usage text to
show. A name between the first two back quotes of the usage is taken, the
quotes removed; otherwise the name is that of the type of the value, empty for
a boolean flag. -/
def UnquoteUsage (fl : Flag) : String × String :=
  match fl.Usage.data.span (fun c => c != Char.ofNat 96) with
  | (pre, _ :: post) =>
    match post.span (fun c => c != Char.ofNat 96) with
    | (nm, _ :: post2) => (String.mk nm, String.mk (pre ++ nm ++ post2))
    | (_, []) => (if fl.IsBoolFlag then "" else fl.TypeName, fl.Usage)
  | (_, []) => (if fl.IsBoolFlag then "" else fl.TypeName, fl.Usage)

/-- The call `strings.ReplaceAll(usage, "\n", "\n    \t")` of `PrintDefaults`. -/
def indentUsage (usage : String) : String :=
  String.mk (usage.data.flatMap (fun c => if c = '\n' then "\n    \t".data else [c]))

/-- The text `PrintDefaults` shows for the default of a flag: nothing when the
default is the zero value of the type of the flag, else the default in
parentheses, quoted for a string value. -/
def defaultText (lib : Lib) (fl : Flag) : String :=
  if fl.DefValue = fl.Zero then ""
  else if fl.IsString then " (default " ++ lib.quote fl.DefValue ++ ")"
  else " (default " ++ fl.DefValue ++ ")"

/-- The head of the text `PrintDefaults` writes for one flag: two spaces, a
minus sign and the name of the flag, then a space and the name of the value
when that name is not empty. -/
def flagHead (fl : Flag) : String :=
  "  -" ++ fl.Name ++ (if (UnquoteUsage fl).1 = "" then "" else " " ++ (UnquoteUsage fl).1)

/-- The text `PrintDefaults` writes for one flag, the body of its visitor: the
head, a tab when the head has at most four bytes and a newline, four spaces
and a tab otherwise, the usage, the default when it is not the zero value, and
a newline. -/
def printDefault (lib : Lib) (fl : Flag) : String :=
  flagHead fl
    ++ (if (flagHead fl).utf8ByteSize ≤ 4 then "\t" else "\n    \t")
    ++ indentUsage (UnquoteUsage fl).2
    ++ defaultText lib fl
    ++ "\n"

/-- The method `f.PrintDefaults()`: the text of every declared flag, in the
order of `VisitAll`, written to the output of the set. -/
def FlagSet.PrintDefaults (lib : Lib) (f : FlagSet) : String :=
  String.join (f.VisitAll.map (printDefault lib))

/-! ## cmdmain.go and flag.go -/

/-- The interface `Command`, with the optional method `Describe` of the
interface `describer` (none when the command does not implement it). `Run`
reads the values its options store, so it is given the global flag set and the
flag set of the command as `Parse` left them; it returns the text of the error,
none for nil. -/
structure Command where
  Run : FlagSet → FlagSet → List String → Option String
  ArgNames : String
  Describe : Option String

/-- The struct `cmd`: a registered command with its flag set. -/
structure cmd where
  flags : FlagSet
  cmd : Command

/-- The struct `funcFlag`. The field `v` is the storage of the boolean option
`flag` of `Globals`; the function `f` is known by a label. -/
structure funcFlag where
  flag : String
  f : Nat
deriving DecidableEq, Repr

/-- The package-level variables. The map `cmds` is its list of entries, keys
pairwise distinct, newest first. -/
structure State where
  Globals : FlagSet
  cmds : List (String × cmd)
  funcFlags : List funcFlag

/-- The state after `init`. -/
def init : State :=
  { Globals := NewFlagSet "globals", cmds := [], funcFlags := [] }

/-- The field `ff.v`: whether the option it is bound to now stores true. -/
def funcFlag.v (g : FlagSet) (ff : funcFlag) : Bool :=
  g.value ff.flag == some "true"

/-- A handler invoked during a run: the `Run` of the command registered under
`name`, or the function of a function flag. -/
inductive Event where
  | Run (name : String) (args : List String)
  | Callback (f : Nat)
deriving DecidableEq, Repr

/-- The value a panic carries: a string, or one of the two errors of
`Register`, whose text quotes the name with `%q`. -/
inductive PanicValue where
  | str (s : String)
  | alreadyRegistered (name : String)
  | nilCommand (name : String)
deriving DecidableEq, Repr

/-- How a run ends: by returning, by `os.Exit(status)`, or by a panic. -/
inductive Outcome where
  | returned
  | exited (status : Nat)
  | panicked (v : PanicValue)
deriving DecidableEq, Repr

/-- The observable behaviour of a run: how it ended, the text written to
standard error by this package and by package flag, and the handlers invoked,
in order. -/
structure Result where
  outcome : Outcome
  stderr : String
  trace : List Event
deriving DecidableEq, Repr

/-- The outcome of `Register`: the panic if any, and the state afterwards. -/
structure RegResult where
  panic : Option PanicValue
  st : State

/-- The function `Register`. The factory `makeCmd` declares options on the flag
set it is given and returns the command, none for nil. -/
def Register (st : State) (prog : String) (name : String)
    (makeCmd : FlagSet → FlagSet × Option Command) : RegResult :=
  match st.cmds.lookup name with
  | some _ => { panic := some (.alreadyRegistered name), st := st }
  | none =>
    let flags := NewFlagSet (prog ++ " " ++ name)
    match makeCmd flags with
    | (_, none) => { panic := some (.nilCommand name), st := st }
    | (flags1, some c) =>
      { panic := none, st := { st with cmds := (name, { flags := flags1, cmd := c }) :: st.cmds } }

/-- The function `FlagFunc`: none when `Globals.BoolVar` panics. -/
def FlagFunc (st : State) (flag usage : String) (f : Nat) : Option State :=
  match st.Globals.BoolVar flag false usage with
  | none => none
  | some g => some { st with Globals := g, funcFlags := st.funcFlags ++ [{ flag := flag, f := f }] }

/-- The function `VersionFlag`. -/
def VersionFlag (st : State) (showVersion : Nat) : Option State :=
  FlagFunc st "version" "show version" showVersion

/-- The function `hasFlags`: whether `VisitAll` visits any flag. -/
def hasFlags (flags : FlagSet) : Bool :=
  flags.VisitAll.foldl (fun _ _ => true) false

/-- The names collected by `for n := range cmds`, in the order of the entries
(Go leaves the order open; `sortStrings` makes it immaterial). -/
def names (st : State) : List String :=
  st.cmds.map Prod.fst

/-- The description `Usage` shows for the name `n`: the result of `Describe`
when `cmds[n].cmd` implements `describer`, else the fixed text. -/
def description (st : State) (n : String) : String :=
  match st.cmds.lookup n with
  | some c =>
    match c.cmd.Describe with
    | some d => d
    | none => "No description available."
  | none => "No description available."

/-- The line `Usage` writes for the name `n`. -/
def commandLine (st : State) (n : String) : String :=
  "  " ++ n ++ ": " ++ description st n ++ "\n"

/-- The lines `Usage` writes under the heading of the commands. -/
def commandLines (st : State) : List String :=
  (sortStrings (names st)).map (commandLine st)

/-- The text `Usage` writes to standard error. -/
def UsageText (lib : Lib) (st : State) (prog : String) : String :=
  "Usage:\n\n  " ++ prog ++ " [globalopts] cmd [cmdopts] [cmdargs]\n\n"
    ++ "Commands:\n"
    ++ String.join (commandLines st)
    ++ (if hasFlags st.Globals then "\nGlobal options:\n" ++ st.Globals.PrintDefaults lib else "")

/-- The function `Usage`, called when `out` has been written to standard error
and no handler has been invoked: it writes its text and exits with status 2. -/
def Usage (lib : Lib) (st : State) (prog : String) (out : String) : Result :=
  { outcome := .exited 2, stderr := out ++ UsageText lib st prog, trace := [] }

/-- The usage block `Main` writes when the options of the command `cmdname` do
not parse. -/
def cmdUsageText (lib : Lib) (prog cmdname : String) (c : cmd) : String :=
  "Usage:\n\n  " ++ prog ++ " [globalopts] " ++ cmdname ++ " "
    ++ (if hasFlags c.flags then "[cmdopts] " else "") ++ c.cmd.ArgNames ++ "\n\n"
    ++ (if hasFlags c.flags then cmdname ++ " options:\n" ++ c.flags.PrintDefaults lib else "")

/-- The function `Main`, run in state `st` with `os.Args = prog :: argv`. -/
def Main (lib : Lib) (st : State) (prog : String) (argv : List String) : Result :=
  if st.cmds.length = 0 then
    { outcome := .panicked (.str "program has no commands defined"), stderr := "", trace := [] }
  else
    let r := st.Globals.Parse lib argv
    let st1 : State := { st with Globals := r.fs }
    match r.err with
    | some err =>
      Usage lib st1 prog
        (r.out ++ (if err ≠ FlagError.ErrHelp then err.Error ++ "\n" else ""))
    | none =>
      match r.fs.Args with
      | [] => Usage lib st1 prog (r.out ++ "No command specified.\n" ++ "\n")
      | cmdname :: rest =>
        match st1.cmds.lookup cmdname with
        | none => Usage lib st1 prog (r.out ++ "Unknown command: " ++ " " ++ cmdname ++ "\n")
        | some c =>
          let rc := c.flags.Parse lib rest
          let c1 : cmd := { c with flags := rc.fs }
          match rc.err with
          | some _ =>
            { outcome := .exited 2,
              stderr := r.out ++ rc.out ++ cmdUsageText lib prog cmdname c1,
              trace := [] }
          | none =>
            match c1.cmd.Run r.fs c1.flags c1.flags.Args with
            | some e =>
              { outcome := .returned,
                stderr := r.out ++ rc.out ++ e ++ "\n",
                trace := [.Run cmdname c1.flags.Args] }
            | none =>
              { outcome := .returned,
                stderr := r.out ++ rc.out,
                trace := [.Run cmdname c1.flags.Args] }

/-! ## Sample hosts -/

/-- The digit of `n` below sixteen in lower-case hexadecimal. -/
def hexDigit (n : Nat) : Char :=
  "0123456789abcdef".data.getD n '0'

/-- The escape `strconv.Quote` writes for one character of ASCII: a backslash
before the double quote and the backslash, the letter escapes of the control
characters that have one, two hexadecimal digits for the other control
characters, and the character itself otherwise. -/
def quoteChar (c : Char) : List Char :=
  if c = '"' then ['\\', '"']
  else if c = '\\' then ['\\', '\\']
  else if c = Char.ofNat 7 then ['\\', 'a']
  else if c = Char.ofNat 8 then ['\\', 'b']
  else if c = Char.ofNat 12 then ['\\', 'f']
  else if c = '\n' then ['\\', 'n']
  else if c = '\r' then ['\\', 'r']
  else if c = '\t' then ['\\', 't']
  else if c = Char.ofNat 11 then ['\\', 'v']
  else if c.toNat < 32 ∨ c.toNat = 127 then
    ['\\', 'x', hexDigit (c.toNat / 16), hexDigit (c.toNat % 16)]
  else [c]

/-- The library used in the examples: `quote` is `strconv.Quote` as it acts on
ASCII text; characters beyond ASCII are kept, as Go keeps the printable
ones. -/
def sampleLib : Lib :=
  { quote := fun s => String.mk ('"' :: s.data.flatMap quoteChar ++ ['"']) }

/-- A command without options and without description, whose `Run` returns
nil. -/
def plainCommand : Command :=
  { Run := fun _ _ _ => none, ArgNames := "[files]", Describe := none }

/-- A host that registers the command build, without options. -/
def buildHost : State :=
  (Register init "prog" "build" (fun f => (f, some plainCommand))).st

/-- A host whose command build returns an error from `Run`. -/
def failingHost : State :=
  (Register init "prog" "build"
    (fun f => (f, some { Run := fun _ _ _ => some "build failed", ArgNames := "[files]",
                         Describe := none }))).st

/-- A command with the single boolean option verbose. -/
def verboseFactory (f : FlagSet) : FlagSet × Option Command :=
  match f.BoolVar "verbose" false "be verbose" with
  | some g => (g, some plainCommand)
  | none => (f, none)

/-- A host that registers the command cmd with the single option verbose. -/
def verboseHost : State :=
  (Register init "prog" "cmd" verboseFactory).st

/-- A command that implements `Describe`. -/
def describedCommand : Command :=
  { Run := fun _ _ _ => none, ArgNames := "", Describe := some "remove build products" }

/-- A host that registers test, then build, then clean, the last with a
description. -/
def threeHost : State :=
  (Register
    (Register (Register init "prog" "test" (fun f => (f, some plainCommand))).st
      "prog" "build" (fun f => (f, some plainCommand))).st
    "prog" "clean" (fun f => (f, some describedCommand))).st

/-- A host that registers build and declares the version flag, whose function
has the label 0. -/
def versionHost : State :=
  (VersionFlag buildHost 0).getD buildHost

/-! ## Facts about package flag -/

/-- The text written by the parse loop is determined by the error it returns:
the message and a newline for an error made by `failf`, nothing otherwise. -/
theorem parseArgs_out (lib : Lib) (a : List String) (f : FlagSet) :
    (FlagSet.parseArgs lib a f).out =
      match (FlagSet.parseArgs lib a f).err with
      | some (.failed msg) => msg ++ "\n"
      | _ => "" := by
  induction a, f using FlagSet.parseArgs.induct lib <;>
    simp_all [FlagSet.parseArgs, failf]

/-- The parse loop leaves the declared flags as they are. -/
theorem parseArgs_formal (lib : Lib) (a : List String) (f : FlagSet) :
    (FlagSet.parseArgs lib a f).fs.formal = f.formal := by
  induction a, f using FlagSet.parseArgs.induct lib <;>
    simp_all [FlagSet.parseArgs, failf, FlagSet.store]

/-- Parsing writes nothing when it succeeds. -/
theorem Parse_out_of_ok (lib : Lib) (f : FlagSet) (a : List String)
    (h : (f.Parse lib a).err = none) : (f.Parse lib a).out = "" := by
  unfold FlagSet.Parse at h ⊢
  rw [parseArgs_out, h]

/-- Parsing that fails has written the message of the error and a newline,
unless the error is the help request. -/
theorem Parse_out_of_err (lib : Lib) (f : FlagSet) (a : List String) (err : FlagError)
    (h : (f.Parse lib a).err = some err) :
    (f.Parse lib a).out = err.written := by
  unfold FlagSet.Parse at h ⊢
  rw [parseArgs_out, h]
  cases err <;> rfl

/-- Parsing leaves the declared flags as they are. -/
theorem Parse_formal (lib : Lib) (f : FlagSet) (a : List String) :
    (f.Parse lib a).fs.formal = f.formal := by
  unfold FlagSet.Parse
  rw [parseArgs_formal]

/-- Folding the visitor of `hasFlags` over a non-empty list gives true. -/
theorem foldl_visit_true (l : List Flag) (b : Bool) (h : l ≠ []) :
    l.foldl (fun _ _ => true) b = true := by
  induction l generalizing b with
  | nil => exact absurd rfl h
  | cons x t ih =>
    cases t with
    | nil => rfl
    | cons y t2 => exact ih true (by simp)

/-- The function `hasFlags` tells whether any flag is declared. -/
theorem hasFlags_eq (f : FlagSet) : hasFlags f = !f.formal.isEmpty := by
  unfold hasFlags FlagSet.VisitAll
  cases hf : f.formal with
  | nil => rfl
  | cons x t =>
    have hlen := List.length_insertionSort (fun a b : Flag => stringLE a.Name b.Name) (x :: t)
    have hne : List.insertionSort (fun a b : Flag => stringLE a.Name b.Name) (x :: t) ≠ [] := by
      intro h0
      rw [h0] at hlen
      simp at hlen
    rw [foldl_visit_true _ _ hne]
    rfl

/-- The usage text reads the global flag set only through its declared flags. -/
theorem UsageText_Globals (lib : Lib) (st : State) (prog : String) (g : FlagSet)
    (h : g.formal = st.Globals.formal) :
    UsageText lib { st with Globals := g } prog = UsageText lib st prog := by
  have hl : commandLine { st with Globals := g } = commandLine st := rfl
  simp only [UsageText, hasFlags, FlagSet.PrintDefaults, FlagSet.VisitAll, h, commandLines,
    names, hl]

/-- The usage block of a command reads its flag set only through its declared
flags. -/
theorem cmdUsageText_flags (lib : Lib) (prog n : String) (c : cmd) (g : FlagSet)
    (h : g.formal = c.flags.formal) :
    cmdUsageText lib prog n { c with flags := g } = cmdUsageText lib prog n c := by
  simp only [cmdUsageText, hasFlags, FlagSet.PrintDefaults, FlagSet.VisitAll, h]

/-- A successful lookup shows that the map is not empty. -/
theorem length_ne_zero_of_lookup (l : List (String × cmd)) (n : String) (c : cmd)
    (h : l.lookup n = some c) : ¬ l.length = 0 := by
  cases l with
  | nil => simp at h
  | cons x t => simp

/-! ## Dispatch -/

/-- The run of `Main` on the path that reaches the handler. -/
theorem Main_eq_run (lib : Lib) (st : State) (prog : String) (argv : List String)
    (n : String) (rest : List String) (c : cmd)
    (hg : (st.Globals.Parse lib argv).err = none)
    (hargs : (st.Globals.Parse lib argv).fs.Args = n :: rest)
    (hn : st.cmds.lookup n = some c)
    (hc : (c.flags.Parse lib rest).err = none) :
    Main lib st prog argv =
      { outcome := .returned,
        stderr :=
          (match c.cmd.Run (st.Globals.Parse lib argv).fs (c.flags.Parse lib rest).fs
              (c.flags.Parse lib rest).fs.Args with
            | some e => e ++ "\n"
            | none => ""),
        trace := [.Run n (c.flags.Parse lib rest).fs.Args] } := by
  have hlen := length_ne_zero_of_lookup st.cmds n c hn
  have ho := Parse_out_of_ok lib st.Globals argv hg
  have hco := Parse_out_of_ok lib c.flags rest hc
  simp only [Main, hlen, if_false, hg, hargs, hn, hc, ho, hco]
  cases hr : c.cmd.Run (st.Globals.Parse lib argv).fs (c.flags.Parse lib rest).fs
      (c.flags.Parse lib rest).fs.Args <;> simp

/-- C1. When the global options parse and leave the positional tokens `n :: rest`,
`n` is registered and the options of `n` parse on `rest`, `Main` returns
normally (it reaches neither `Usage` nor an exit), the only handler invoked is
the `Run` of `n`, once, with exactly the positional tokens left by the parse of
`rest`, and standard error holds nothing but the message of the error `Run`
returned, if any. -/
theorem Main_dispatch (lib : Lib) (st : State) (prog : String) (argv : List String)
    (n : String) (rest : List String) (c : cmd)
    (hg : (st.Globals.Parse lib argv).err = none)
    (hargs : (st.Globals.Parse lib argv).fs.Args = n :: rest)
    (hn : st.cmds.lookup n = some c)
    (hc : (c.flags.Parse lib rest).err = none) :
    (Main lib st prog argv).outcome = .returned ∧
    (Main lib st prog argv).trace = [.Run n (c.flags.Parse lib rest).fs.Args] ∧
    (Main lib st prog argv).stderr =
      (match c.cmd.Run (st.Globals.Parse lib argv).fs (c.flags.Parse lib rest).fs
          (c.flags.Parse lib rest).fs.Args with
        | some e => e ++ "\n"
        | none => "") := by
  rw [Main_eq_run lib st prog argv n rest c hg hargs hn hc]
  exact ⟨rfl, rfl, rfl⟩

/-- C1, on the host that registers build without options: the arguments
build, x, y make `Main` call the `Run` of build with x, y. -/
theorem Main_dispatch_witness :
    (Main sampleLib buildHost "prog" ["build", "x", "y"]).outcome = .returned ∧
    (Main sampleLib buildHost "prog" ["build", "x", "y"]).trace = [.Run "build" ["x", "y"]] ∧
    (Main sampleLib buildHost "prog" ["build", "x", "y"]).stderr = "" :=
  Main_dispatch sampleLib buildHost "prog" ["build", "x", "y"] "build" ["x", "y"]
    { flags := NewFlagSet "prog build", cmd := plainCommand } (by decide) (by decide) rfl
    (by decide)

/-- C9. When dispatch reaches the `Run` of a command and `Run` returns an
error `e`, `Main` writes the message of `e` and a newline to standard error and
returns normally, without `Usage` and without exit; in a state that differs
only in that `Run` returns nil there, the outcome and the handlers invoked are
the same and nothing is written. -/
theorem Main_run_error (lib : Lib) (st : State) (prog : String) (argv : List String)
    (n : String) (rest : List String) (c : cmd) (e : String)
    (hg : (st.Globals.Parse lib argv).err = none)
    (hargs : (st.Globals.Parse lib argv).fs.Args = n :: rest)
    (hn : st.cmds.lookup n = some c)
    (hc : (c.flags.Parse lib rest).err = none)
    (hrun : c.cmd.Run (st.Globals.Parse lib argv).fs (c.flags.Parse lib rest).fs
      (c.flags.Parse lib rest).fs.Args = some e) :
    Main lib st prog argv =
      { outcome := .returned, stderr := e ++ "\n",
        trace := [.Run n (c.flags.Parse lib rest).fs.Args] } ∧
    ∀ (st0 : State) (c0 : cmd), st0.Globals = st.Globals → st0.cmds.lookup n = some c0 →
      c0.flags = c.flags →
      c0.cmd.Run (st.Globals.Parse lib argv).fs (c.flags.Parse lib rest).fs
        (c.flags.Parse lib rest).fs.Args = none →
      (Main lib st0 prog argv).outcome = (Main lib st prog argv).outcome ∧
      (Main lib st0 prog argv).trace = (Main lib st prog argv).trace ∧
      (Main lib st0 prog argv).stderr = "" := by
  have key : Main lib st prog argv =
      { outcome := .returned, stderr := e ++ "\n",
        trace := [.Run n (c.flags.Parse lib rest).fs.Args] } := by
    rw [Main_eq_run lib st prog argv n rest c hg hargs hn hc, hrun]
  refine ⟨key, ?_⟩
  intro st0 c0 hG hn0 hf hrun0
  have h0 := Main_eq_run lib st0 prog argv n rest c0 (by rw [hG]; exact hg)
    (by rw [hG]; exact hargs) hn0 (by rw [hf]; exact hc)
  rw [hG, hf, hrun0] at h0
  rw [key, h0]
  exact ⟨rfl, rfl, rfl⟩

/-- C9, on a host whose build command fails: the message is written and `Main`
returns. -/
theorem Main_run_error_witness :
    Main sampleLib failingHost "prog" ["build", "x"] =
      { outcome := .returned, stderr := "build failed\n", trace := [.Run "build" ["x"]] } :=
  (Main_run_error sampleLib failingHost "prog" ["build", "x"] "build" ["x"]
    { flags := NewFlagSet "prog build",
      cmd := { Run := fun _ _ _ => some "build failed", ArgNames := "[files]",
               Describe := none } }
    "build failed" (by decide) (by decide) rfl (by decide) rfl).1

/-- C10. `Main` panics exactly when no command is registered; with an empty
registry it panics with the text "program has no commands defined", whatever
the arguments, having written nothing and invoked no handler. -/
theorem Main_panics_iff (lib : Lib) (st : State) (prog : String) (argv : List String) :
    ((∃ v, (Main lib st prog argv).outcome = .panicked v) ↔ st.cmds = []) ∧
    (st.cmds = [] → Main lib st prog argv =
      { outcome := .panicked (.str "program has no commands defined"), stderr := "",
        trace := [] }) := by
  have hempty : st.cmds = [] → Main lib st prog argv =
      { outcome := .panicked (.str "program has no commands defined"), stderr := "",
        trace := [] } := by
    intro h
    simp [Main, h]
  refine ⟨⟨?_, ?_⟩, hempty⟩
  · rintro ⟨v, hv⟩
    by_contra hne
    have hlen : ¬ st.cmds.length = 0 := by
      intro h0
      exact hne (List.length_eq_zero.mp h0)
    revert hv
    simp only [Main, hlen, if_false, Usage]
    cases (st.Globals.Parse lib argv).err with
    | some err => simp
    | none =>
      simp only
      cases (st.Globals.Parse lib argv).fs.Args with
      | nil => simp
      | cons cmdname rest =>
        simp only
        cases st.cmds.lookup cmdname with
        | none => simp
        | some c =>
          simp only
          cases (c.flags.Parse lib rest).err with
          | some e => simp
          | none =>
            simp only
            cases c.cmd.Run (st.Globals.Parse lib argv).fs (c.flags.Parse lib rest).fs
              (c.flags.Parse lib rest).fs.Args <;> simp
  · intro h
    exact ⟨_, by rw [hempty h]⟩

/-! ## Usage failures -/

/-- The run of `Main` when the global options do not parse. -/
theorem Main_eq_global_error (lib : Lib) (st : State) (prog : String) (argv : List String)
    (err : FlagError) (hne : st.cmds ≠ [])
    (hg : (st.Globals.Parse lib argv).err = some err) :
    Main lib st prog argv =
      { outcome := .exited 2,
        stderr := (st.Globals.Parse lib argv).out
          ++ (if err ≠ FlagError.ErrHelp then err.Error ++ "\n" else "")
          ++ UsageText lib st prog,
        trace := [] } := by
  have hlen : ¬ st.cmds.length = 0 := fun h0 => hne (List.length_eq_zero.mp h0)
  simp only [Main, hlen, if_false, hg, Usage]
  rw [UsageText_Globals lib st prog _ (Parse_formal lib st.Globals argv)]

/-- The run of `Main` when no positional token is left. -/
theorem Main_eq_no_command (lib : Lib) (st : State) (prog : String) (argv : List String)
    (hne : st.cmds ≠ [])
    (hg : (st.Globals.Parse lib argv).err = none)
    (hargs : (st.Globals.Parse lib argv).fs.Args = []) :
    Main lib st prog argv =
      { outcome := .exited 2,
        stderr := "No command specified.\n\n" ++ UsageText lib st prog,
        trace := [] } := by
  have hlen : ¬ st.cmds.length = 0 := fun h0 => hne (List.length_eq_zero.mp h0)
  have ho := Parse_out_of_ok lib st.Globals argv hg
  simp only [Main, hlen, if_false, hg, hargs, Usage, ho]
  rw [UsageText_Globals lib st prog _ (Parse_formal lib st.Globals argv)]
  simp [String.append_assoc]

/-- The run of `Main` when the first positional token is not registered. -/
theorem Main_eq_unknown (lib : Lib) (st : State) (prog : String) (argv : List String)
    (n : String) (rest : List String) (hne : st.cmds ≠ [])
    (hg : (st.Globals.Parse lib argv).err = none)
    (hargs : (st.Globals.Parse lib argv).fs.Args = n :: rest)
    (hn : st.cmds.lookup n = none) :
    Main lib st prog argv =
      { outcome := .exited 2,
        stderr := "Unknown command:  " ++ n ++ "\n" ++ UsageText lib st prog,
        trace := [] } := by
  have hlen : ¬ st.cmds.length = 0 := fun h0 => hne (List.length_eq_zero.mp h0)
  have ho := Parse_out_of_ok lib st.Globals argv hg
  simp only [Main, hlen, if_false, hg, hargs, hn, Usage, ho]
  rw [UsageText_Globals lib st prog _ (Parse_formal lib st.Globals argv)]
  simp [String.append_assoc]

/-- The run of `Main` when the options of the command do not parse. -/
theorem Main_eq_cmd_error (lib : Lib) (st : State) (prog : String) (argv : List String)
    (n : String) (rest : List String) (c : cmd) (err : FlagError)
    (hg : (st.Globals.Parse lib argv).err = none)
    (hargs : (st.Globals.Parse lib argv).fs.Args = n :: rest)
    (hn : st.cmds.lookup n = some c)
    (hc : (c.flags.Parse lib rest).err = some err) :
    Main lib st prog argv =
      { outcome := .exited 2,
        stderr := (c.flags.Parse lib rest).out ++ cmdUsageText lib prog n c,
        trace := [] } := by
  have hlen := length_ne_zero_of_lookup st.cmds n c hn
  have ho := Parse_out_of_ok lib st.Globals argv hg
  simp only [Main, hlen, if_false, hg, hargs, hn, hc, ho]
  rw [cmdUsageText_flags lib prog n c _ (Parse_formal lib c.flags rest)]
  simp

/-- C3. With at least one command registered, whenever the global options do
not parse (a help request included), or leave no positional token, or leave a
first positional token that is not registered, or the options of the matched
command do not parse, `Main` exits with status 2 and invokes no handler; and on
the empty argument vector it writes the line "No command specified.", an empty
line and the usage text, and exits with status 2. -/
theorem Main_usage_failure (lib : Lib) (st : State) (prog : String) (argv : List String)
    (hne : st.cmds ≠ [])
    (h : (∃ err, (st.Globals.Parse lib argv).err = some err) ∨
      ((st.Globals.Parse lib argv).err = none ∧ (st.Globals.Parse lib argv).fs.Args = []) ∨
      (∃ n rest, (st.Globals.Parse lib argv).err = none ∧
        (st.Globals.Parse lib argv).fs.Args = n :: rest ∧ st.cmds.lookup n = none) ∨
      (∃ n rest c err, (st.Globals.Parse lib argv).err = none ∧
        (st.Globals.Parse lib argv).fs.Args = n :: rest ∧ st.cmds.lookup n = some c ∧
        (c.flags.Parse lib rest).err = some err)) :
    ((Main lib st prog argv).outcome = .exited 2 ∧ (Main lib st prog argv).trace = []) ∧
    Main lib st prog [] =
      { outcome := .exited 2,
        stderr := "No command specified.\n\n" ++ UsageText lib st prog,
        trace := [] } := by
  refine ⟨?_, Main_eq_no_command lib st prog [] hne rfl rfl⟩
  rcases h with ⟨err, hg⟩ | ⟨hg, hargs⟩ | ⟨n, rest, hg, hargs, hn⟩ | ⟨n, rest, c, err, hg, hargs, hn, hc⟩
  · rw [Main_eq_global_error lib st prog argv err hne hg]
    exact ⟨rfl, rfl⟩
  · rw [Main_eq_no_command lib st prog argv hne hg hargs]
    exact ⟨rfl, rfl⟩
  · rw [Main_eq_unknown lib st prog argv n rest hne hg hargs hn]
    exact ⟨rfl, rfl⟩
  · rw [Main_eq_cmd_error lib st prog argv n rest c err hg hargs hn hc]
    exact ⟨rfl, rfl⟩

/-- C3, on the host that registers build: an undeclared global option ends the
run with status 2 and no handler, and the empty argument vector writes "No
command specified." before the usage text. -/
theorem Main_usage_failure_witness :
    ((Main sampleLib buildHost "prog" ["-x", "build"]).outcome = .exited 2 ∧
      (Main sampleLib buildHost "prog" ["-x", "build"]).trace = []) ∧
    Main sampleLib buildHost "prog" [] =
      { outcome := .exited 2,
        stderr := "No command specified.\n\n" ++ UsageText sampleLib buildHost "prog",
        trace := [] } :=
  Main_usage_failure sampleLib buildHost "prog" ["-x", "build"]
    (List.ne_nil_of_length_pos (by decide))
    (Or.inl ⟨.failed "flag provided but not defined: -x", by decide⟩)

/-- C4, as stated, fails: on the host that registers build, the arguments nope
make `Main` write "Unknown command:", two spaces and the name, not the line
with one space; and on a host without commands `Main` panics on the same
arguments and writes nothing. -/
theorem Main_unknown_command_counterexample :
    ((Main sampleLib buildHost "prog" ["nope"]).stderr =
        "Unknown command:  nope\n" ++ UsageText sampleLib buildHost "prog" ∧
      (Main sampleLib buildHost "prog" ["nope"]).stderr ≠
        "Unknown command: nope\n" ++ UsageText sampleLib buildHost "prog") ∧
    ((init.Globals.Parse sampleLib ["nope"]).err = none ∧
      init.cmds.lookup "nope" = none ∧
      (Main sampleLib init "prog" ["nope"]).stderr = "" ∧
      (Main sampleLib init "prog" ["nope"]).outcome ≠ .exited 2) :=
  ⟨⟨by decide, by decide⟩, by decide, rfl, by decide, by decide⟩

/-- C4, amended. With at least one command registered, when the global options
parse and the first positional token `n` is not registered, what `Main` writes
before the usage text is one line: the text "Unknown command:", blank space,
then the name; it then exits with status 2, no handler invoked. -/
theorem Main_unknown_command (lib : Lib) (st : State) (prog : String) (argv : List String)
    (n : String) (rest : List String) (hne : st.cmds ≠ [])
    (hg : (st.Globals.Parse lib argv).err = none)
    (hargs : (st.Globals.Parse lib argv).fs.Args = n :: rest)
    (hn : st.cmds.lookup n = none) :
    (Main lib st prog argv).outcome = .exited 2 ∧
    (Main lib st prog argv).trace = [] ∧
    ∃ sep : String, sep ≠ "" ∧ (∀ ch ∈ sep.data, ch = ' ') ∧
      (Main lib st prog argv).stderr =
        "Unknown command:" ++ sep ++ n ++ "\n" ++ UsageText lib st prog := by
  rw [Main_eq_unknown lib st prog argv n rest hne hg hargs hn]
  refine ⟨rfl, rfl, "  ", by decide, by decide, ?_⟩
  rfl

/-- C4 amended, on the host that registers build with the arguments nope. -/
theorem Main_unknown_command_witness :
    (Main sampleLib buildHost "prog" ["nope"]).outcome = .exited 2 ∧
    (Main sampleLib buildHost "prog" ["nope"]).trace = [] ∧
    ∃ sep : String, sep ≠ "" ∧ (∀ ch ∈ sep.data, ch = ' ') ∧
      (Main sampleLib buildHost "prog" ["nope"]).stderr =
        "Unknown command:" ++ sep ++ "nope" ++ "\n" ++ UsageText sampleLib buildHost "prog" :=
  Main_unknown_command sampleLib buildHost "prog" ["nope"] "nope" []
    (List.ne_nil_of_length_pos (by decide)) (by decide) (by decide) rfl

/-- A usage text without back quote and without newline is shown as it is,
under the name of the type of the value. -/
theorem UnquoteUsage_plain (x : Flag)
    (h : ∀ ch ∈ x.Usage.data, ch ≠ Char.ofNat 96 ∧ ch ≠ '\n') :
    UnquoteUsage x = (if x.IsBoolFlag then "" else x.TypeName, x.Usage) := by
  have hall : ∀ ch ∈ x.Usage.data, (fun c => c != Char.ofNat 96) ch = true := by
    intro ch hch
    simpa using (h ch hch).1
  have hspan : x.Usage.data.span (fun c => c != Char.ofNat 96) = (x.Usage.data, []) := by
    rw [List.span_eq_take_drop, List.takeWhile_eq_self_iff.mpr hall,
      List.dropWhile_eq_nil_iff.mpr hall]
  unfold UnquoteUsage
  rw [hspan]

/-- A usage text without newline is not changed by the indentation. -/
theorem indentUsage_plain (u : String) (h : ∀ ch ∈ u.data, ch ≠ '\n') :
    indentUsage u = u := by
  unfold indentUsage
  have hl : ∀ l : List Char, (∀ ch ∈ l, ch ≠ '\n') →
      l.flatMap (fun c => if c = '\n' then "\n    \t".data else [c]) = l := by
    intro l
    induction l with
    | nil => intro _; rfl
    | cons c t ih =>
      intro hc
      have h1 : c ≠ '\n' := hc c (List.mem_cons_self _ _)
      have h2 := ih (fun ch hch => hc ch (List.mem_cons_of_mem _ hch))
      simp only [List.flatMap_cons, h1, if_false, h2]
      rfl
  rw [hl u.data h]

set_option maxRecDepth 16384 in
/-- C8, as stated, fails: on the host whose command cmd declares the single
boolean option verbose, with default false and usage "be verbose", the
arguments cmd, -verbose, -unknown do not parse, the usage block is written
with "[cmdopts] " and the listing of the option, and the listing shows the name
and the usage of the option but not its default. -/
theorem Main_cmd_parse_failure_counterexample :
    (verboseFactory (NewFlagSet "prog cmd")).1.formal.map
        (fun x => (x.Name, x.DefValue, x.Usage)) = [("verbose", "false", "be verbose")] ∧
    (Main sampleLib verboseHost "prog" ["cmd", "-verbose", "-unknown"]).stderr =
      "flag provided but not defined: -unknown\n"
        ++ "Usage:\n\n  prog [globalopts] cmd [cmdopts] [files]\n\n"
        ++ "cmd options:\n"
        ++ "  -verbose\n    \tbe verbose\n" ∧
    ¬ ("false".data <:+:
      (Main sampleLib verboseHost "prog" ["cmd", "-verbose", "-unknown"]).stderr.data) := by
  decide

/-- C8, amended. When the options of the matched command `n` do not parse,
`Main` exits with status 2 without invoking a handler, and standard error
holds, after the message package flag wrote for the error, exactly the usage
line with the program, "[globalopts]", the name, "[cmdopts] " if and only if
the command declared an option, and the result of `ArgNames`, followed if and
only if the command declared an option by the heading "<name> options:" and the
text of `PrintDefaults` for every declared option, each once; the command
listing of `Usage` is not written. The text of an option whose usage has no
back quote and no newline is its name after two spaces and a minus sign, the
name of the type of its value unless it is a boolean flag, its usage, and its
default in parentheses only when the default is not the zero value of the
type. -/
theorem Main_cmd_parse_failure (lib : Lib) (st : State) (prog : String)
    (argv : List String) (n : String) (rest : List String) (c : cmd) (err : FlagError)
    (hg : (st.Globals.Parse lib argv).err = none)
    (hargs : (st.Globals.Parse lib argv).fs.Args = n :: rest)
    (hn : st.cmds.lookup n = some c)
    (hc : (c.flags.Parse lib rest).err = some err) :
    Main lib st prog argv =
      { outcome := .exited 2,
        stderr :=
          err.written
          ++ ("Usage:\n\n  " ++ prog ++ " [globalopts] " ++ n ++ " "
            ++ (if c.flags.formal.isEmpty then "" else "[cmdopts] ") ++ c.cmd.ArgNames ++ "\n\n"
            ++ (if c.flags.formal.isEmpty then ""
                else n ++ " options:\n" ++ String.join (c.flags.VisitAll.map (printDefault lib)))),
        trace := [] } ∧
    c.flags.VisitAll.Perm c.flags.formal ∧
    ∀ x : Flag, (∀ ch ∈ x.Usage.data, ch ≠ Char.ofNat 96 ∧ ch ≠ '\n') →
      printDefault lib x =
        "  -" ++ x.Name
          ++ (if (if x.IsBoolFlag then "" else x.TypeName) = "" then ""
              else " " ++ (if x.IsBoolFlag then "" else x.TypeName))
          ++ (if ("  -" ++ x.Name
                ++ (if (if x.IsBoolFlag then "" else x.TypeName) = "" then ""
                    else " " ++ (if x.IsBoolFlag then "" else x.TypeName))).utf8ByteSize ≤ 4
              then "\t" else "\n    \t")
          ++ x.Usage
          ++ (if x.DefValue = x.Zero then ""
              else if x.IsString then " (default " ++ lib.quote x.DefValue ++ ")"
              else " (default " ++ x.DefValue ++ ")")
          ++ "\n" := by
  refine ⟨?_, List.perm_insertionSort _ _, ?_⟩
  · rw [Main_eq_cmd_error lib st prog argv n rest c err hg hargs hn hc]
    rw [Parse_out_of_err lib c.flags rest err hc]
    simp only [cmdUsageText, hasFlags_eq, FlagSet.PrintDefaults]
    cases c.flags.formal.isEmpty <;> simp
  · intro x hx
    have hu := UnquoteUsage_plain x hx
    have hi := indentUsage_plain x.Usage (fun ch hch => (hx ch hch).2)
    simp only [printDefault, flagHead, defaultText, hu, hi]

/-- C8 amended, on the host whose command cmd declares the single option
verbose: the arguments cmd, -verbose, -unknown do not parse, and the block
names cmd with "[cmdopts] " and lists the option. -/
theorem Main_cmd_parse_failure_witness :
    Main sampleLib verboseHost "prog" ["cmd", "-verbose", "-unknown"] =
      { outcome := .exited 2,
        stderr := "flag provided but not defined: -unknown\n"
          ++ "Usage:\n\n  prog [globalopts] cmd [cmdopts] " ++ plainCommand.ArgNames ++ "\n\n"
          ++ "cmd options:\n" ++ "  -verbose\n    \tbe verbose\n",
        trace := [] } :=
  (Main_cmd_parse_failure sampleLib verboseHost "prog" ["cmd", "-verbose", "-unknown"] "cmd"
    ["-verbose", "-unknown"]
    { flags := (verboseFactory (NewFlagSet "prog cmd")).1, cmd := plainCommand }
    (.failed "flag provided but not defined: -unknown")
    (by decide) (by decide) rfl (by decide)).1

/-! ## The registry -/

/-- A key that is not among the keys is not found. -/
theorem lookup_eq_none_of_not_mem (l : List (String × cmd)) (n : String)
    (h : n ∉ l.map Prod.fst) : l.lookup n = none := by
  induction l with
  | nil => rfl
  | cons x t ih =>
    obtain ⟨k, v⟩ := x
    simp only [List.map_cons, List.mem_cons, not_or] at h
    have hk : (n == k) = false := by simpa using h.1
    simp only [List.lookup_cons, hk]
    exact ih h.2

/-- What a lookup finds is an entry of the map. -/
theorem mem_of_lookup_eq_some (l : List (String × cmd)) (n : String) (c : cmd)
    (h : l.lookup n = some c) : (n, c) ∈ l := by
  induction l with
  | nil => simp at h
  | cons x t ih =>
    obtain ⟨k, v⟩ := x
    simp only [List.lookup_cons] at h
    cases hk : (n == k) with
    | true =>
      rw [hk] at h
      have hkn : n = k := by simpa using hk
      have hv : v = c := by simpa using h
      rw [hkn, hv]
      exact List.mem_cons_self _ _
    | false =>
      rw [hk] at h
      exact List.mem_cons_of_mem _ (ih h)

/-- With pairwise distinct keys, a lookup finds every entry. -/
theorem lookup_eq_some_of_mem (l : List (String × cmd)) (n : String) (c : cmd)
    (hd : (l.map Prod.fst).Nodup) (h : (n, c) ∈ l) : l.lookup n = some c := by
  induction l with
  | nil => simp at h
  | cons x t ih =>
    obtain ⟨k, v⟩ := x
    simp only [List.map_cons, List.nodup_cons] at hd
    rcases List.mem_cons.mp h with heq | hmem
    · have hk : n = k := congrArg Prod.fst heq
      have hv : c = v := congrArg Prod.snd heq
      simp [List.lookup_cons, hk, hv]
    · have hne : (n == k) = false := by
        have : n ≠ k := by
          intro hnk
          apply hd.1
          rw [← hnk]
          exact List.mem_map_of_mem Prod.fst hmem
        simpa using this
      simp only [List.lookup_cons, hne]
      exact ih hd.2 hmem

/-- With pairwise distinct keys, a lookup does not depend on the order of the
entries. -/
theorem lookup_perm (l1 l2 : List (String × cmd)) (hp : l1.Perm l2)
    (hd : (l1.map Prod.fst).Nodup) (n : String) : l1.lookup n = l2.lookup n := by
  have hd2 : (l2.map Prod.fst).Nodup := (hp.map Prod.fst).nodup_iff.mp hd
  cases h2 : l2.lookup n with
  | some c =>
    exact lookup_eq_some_of_mem l1 n c hd (hp.mem_iff.mpr (mem_of_lookup_eq_some l2 n c h2))
  | none =>
    cases h1 : l1.lookup n with
    | none => rfl
    | some c =>
      have := lookup_eq_some_of_mem l2 n c hd2 (hp.mem_iff.mp (mem_of_lookup_eq_some l1 n c h1))
      rw [h2] at this
      exact absurd this (by simp)

/-- The result of `Register` on a name already registered. -/
theorem Register_of_registered (st : State) (prog name : String)
    (makeCmd : FlagSet → FlagSet × Option Command) (c : cmd)
    (hl : st.cmds.lookup name = some c) :
    Register st prog name makeCmd = { panic := some (.alreadyRegistered name), st := st } := by
  unfold Register
  simp only [hl]

/-- The result of `Register` when the factory returns nil. -/
theorem Register_of_nil (st : State) (prog name : String)
    (makeCmd : FlagSet → FlagSet × Option Command) (fl : FlagSet)
    (hl : st.cmds.lookup name = none)
    (hm : makeCmd (NewFlagSet (prog ++ " " ++ name)) = (fl, none)) :
    Register st prog name makeCmd = { panic := some (.nilCommand name), st := st } := by
  unfold Register
  simp only [hl, hm]

/-- The result of `Register` on a new name when the factory returns a
command. -/
theorem Register_of_new (st : State) (prog name : String)
    (makeCmd : FlagSet → FlagSet × Option Command) (fl : FlagSet) (c : Command)
    (hl : st.cmds.lookup name = none)
    (hm : makeCmd (NewFlagSet (prog ++ " " ++ name)) = (fl, some c)) :
    Register st prog name makeCmd =
      { panic := none,
        st := { st with cmds := (name, { flags := fl, cmd := c }) :: st.cmds } } := by
  unfold Register
  simp only [hl, hm]

/-- C2. If the name is already registered, or the factory returns nil,
`Register` panics (with the error of a duplicate in the first case, with the
error of a nil command otherwise) and the state after the call, the registry
included, is the state before it; in particular the entry stored under the
name is the one stored before. -/
theorem Register_fails_unchanged (st : State) (prog name : String)
    (makeCmd : FlagSet → FlagSet × Option Command)
    (h : (st.cmds.lookup name).isSome = true ∨
      (makeCmd (NewFlagSet (prog ++ " " ++ name))).2 = none) :
    (Register st prog name makeCmd).panic =
      some (if (st.cmds.lookup name).isSome then .alreadyRegistered name
            else .nilCommand name) ∧
    (Register st prog name makeCmd).st = st ∧
    (Register st prog name makeCmd).st.cmds.lookup name = st.cmds.lookup name := by
  cases hl : st.cmds.lookup name with
  | some c =>
    rw [Register_of_registered st prog name makeCmd c hl]
    exact ⟨rfl, rfl, hl⟩
  | none =>
    rw [hl] at h
    simp only [Option.isSome_none, Bool.false_eq_true, false_or] at h
    cases hm : makeCmd (NewFlagSet (prog ++ " " ++ name)) with
    | mk fl oc =>
      rw [hm] at h
      simp only at h
      subst h
      rw [Register_of_nil st prog name makeCmd fl hl hm]
      exact ⟨rfl, rfl, hl⟩

/-- C2, on the host that registers build: a second registration of build
panics and leaves the state as it was, and so does a factory that returns
nil. -/
theorem Register_fails_unchanged_witness :
    ((Register buildHost "prog" "build" (fun f => (f, some plainCommand))).panic =
        some (.alreadyRegistered "build") ∧
      (Register buildHost "prog" "build" (fun f => (f, some plainCommand))).st = buildHost) ∧
    ((Register buildHost "prog" "test" (fun f => (f, none))).panic =
        some (.nilCommand "test") ∧
      (Register buildHost "prog" "test" (fun f => (f, none))).st = buildHost) :=
  ⟨⟨(Register_fails_unchanged buildHost "prog" "build" (fun f => (f, some plainCommand))
      (Or.inl (by decide))).1,
    (Register_fails_unchanged buildHost "prog" "build" (fun f => (f, some plainCommand))
      (Or.inl (by decide))).2.1⟩,
   ⟨(Register_fails_unchanged buildHost "prog" "test" (fun f => (f, none)) (Or.inr rfl)).1,
    (Register_fails_unchanged buildHost "prog" "test" (fun f => (f, none)) (Or.inr rfl)).2.1⟩⟩

/-- C6, as stated, fails: on the initial state `Register` with the empty name
and a factory that returns a command does not panic, and the registry then has
the empty string as a key. -/
theorem Register_empty_name_counterexample :
    (Register init "prog" "" (fun f => (f, some plainCommand))).panic = none ∧
    names (Register init "prog" "" (fun f => (f, some plainCommand))).st = [""] := by
  decide

/-- C6, amended. `Register` treats the empty name as any other: called with the
empty string it panics, inserting nothing, exactly when the empty string is
already registered or the factory returns nil, and otherwise it inserts the
command under the empty string. -/
theorem Register_empty_name (st : State) (prog : String)
    (makeCmd : FlagSet → FlagSet × Option Command) :
    ((Register st prog "" makeCmd).panic ≠ none ↔
      ((st.cmds.lookup "").isSome = true ∨
        (makeCmd (NewFlagSet (prog ++ " " ++ ""))).2 = none)) ∧
    ((Register st prog "" makeCmd).panic ≠ none → (Register st prog "" makeCmd).st = st) ∧
    ((Register st prog "" makeCmd).panic = none →
      names (Register st prog "" makeCmd).st = "" :: names st) := by
  cases hl : st.cmds.lookup "" with
  | some c =>
    rw [Register_of_registered st prog "" makeCmd c hl]
    simp
  | none =>
    cases hm : makeCmd (NewFlagSet (prog ++ " " ++ "")) with
    | mk fl oc =>
      cases oc with
      | none =>
        rw [Register_of_nil st prog "" makeCmd fl hl hm]
        simp
      | some c =>
        rw [Register_of_new st prog "" makeCmd fl c hl hm]
        simp [names]

/-- A name that is not found is not among the keys. -/
theorem not_mem_of_lookup_eq_none (l : List (String × cmd)) (n : String)
    (h : l.lookup n = none) : n ∉ l.map Prod.fst := by
  induction l with
  | nil => simp
  | cons y t ih =>
    obtain ⟨k2, v2⟩ := y
    simp only [List.lookup_cons] at h
    cases hk : (n == k2) with
    | true => simp [hk] at h
    | false =>
      rw [hk] at h
      have hne : n ≠ k2 := by simpa using hk
      simp only [List.map_cons, List.mem_cons, not_or]
      exact ⟨hne, ih h⟩

/-- The keys of the registry stay pairwise distinct under `Register`. -/
theorem Register_names_nodup (st : State) (prog name : String)
    (makeCmd : FlagSet → FlagSet × Option Command) (h : (names st).Nodup) :
    (names (Register st prog name makeCmd).st).Nodup := by
  cases hl : st.cmds.lookup name with
  | some c =>
    rw [Register_of_registered st prog name makeCmd c hl]
    exact h
  | none =>
    cases hm : makeCmd (NewFlagSet (prog ++ " " ++ name)) with
    | mk fl oc =>
      cases oc with
      | none =>
        rw [Register_of_nil st prog name makeCmd fl hl hm]
        exact h
      | some c =>
        rw [Register_of_new st prog name makeCmd fl c hl hm]
        simp only [names, List.map_cons, List.nodup_cons]
        exact ⟨not_mem_of_lookup_eq_none st.cmds name hl, h⟩

/-! ## The order of the listing -/

/-- The order `stringLE` is the order of the lists of characters. -/
theorem stringLE_iff (a b : String) : stringLE a b ↔ a.data ≤ b.data := by
  unfold stringLE stringLess
  exact not_lt

/-- The order of Go strings is total. -/
theorem stringLE_total : IsTotal String stringLE :=
  ⟨fun a b => by simp only [stringLE_iff]; exact le_total _ _⟩

/-- The order of Go strings is transitive. -/
theorem stringLE_trans : IsTrans String stringLE :=
  ⟨fun a b c => by simp only [stringLE_iff]; exact le_trans⟩

/-- The order of Go strings is antisymmetric. -/
theorem stringLE_antisymm : IsAntisymm String stringLE :=
  ⟨fun a b => by
    simp only [stringLE_iff]
    intro h1 h2
    exact String.ext (le_antisymm h1 h2)⟩

/-- Two different strings in increasing order are in strictly increasing
order. -/
theorem stringLess_of_le_of_ne (a b : String) (h : stringLE a b) (hne : a ≠ b) :
    stringLess a b := by
  unfold stringLess
  rw [stringLE_iff] at h
  refine lt_of_le_of_ne h ?_
  intro hd
  exact hne (String.ext hd)

/-- The function `sortStrings` returns the same strings. -/
theorem sortStrings_perm (l : List String) : (sortStrings l).Perm l :=
  List.perm_insertionSort _ _

/-- The function `sortStrings` returns pairwise distinct strings in strictly
increasing order. -/
theorem sortStrings_strict (l : List String) (h : l.Nodup) :
    (sortStrings l).Pairwise stringLess := by
  haveI := stringLE_total
  haveI := stringLE_trans
  have hs : (sortStrings l).Pairwise stringLE := List.sorted_insertionSort stringLE l
  have hd : (sortStrings l).Pairwise (fun a b => a ≠ b) :=
    (sortStrings_perm l).nodup_iff.mpr h
  exact (hs.and hd).imp (fun hab => stringLess_of_le_of_ne _ _ hab.1 hab.2)

/-- The result of `sortStrings` does not depend on the order of its input. -/
theorem sortStrings_of_perm (l1 l2 : List String) (hp : l1.Perm l2) :
    sortStrings l1 = sortStrings l2 := by
  haveI := stringLE_total
  haveI := stringLE_trans
  haveI := stringLE_antisymm
  exact List.eq_of_perm_of_sorted
    (((sortStrings_perm l1).trans hp).trans (sortStrings_perm l2).symm)
    (List.sorted_insertionSort stringLE l1) (List.sorted_insertionSort stringLE l2)

/-- C7. For every registry (a map: keys pairwise distinct), the text of `Usage`
has, after the heading of the commands, the lines "  <name>: <description>", one
for each registered name, each name once, in strictly increasing order of the
names; the lines are the same for every order of the entries; and the
description of a registered name is the result of `Describe` of its command
when it has one, and "No description available." otherwise. -/
theorem Usage_command_listing (lib : Lib) (st : State) (prog : String)
    (h : (names st).Nodup) :
    (Usage lib st prog "").stderr =
      "" ++ ("Usage:\n\n  " ++ prog ++ " [globalopts] cmd [cmdopts] [cmdargs]\n\n"
        ++ "Commands:\n"
        ++ String.join
            ((sortStrings (names st)).map
              (fun n => "  " ++ n ++ ": " ++ description st n ++ "\n"))
        ++ (if hasFlags st.Globals then "\nGlobal options:\n" ++ st.Globals.PrintDefaults lib
            else "")) ∧
    (sortStrings (names st)).Perm (names st) ∧
    (sortStrings (names st)).Nodup ∧
    (sortStrings (names st)).Pairwise stringLess ∧
    (∀ n c, (n, c) ∈ st.cmds →
      description st n = c.cmd.Describe.getD "No description available.") ∧
    (∀ st2 : State, st2.cmds.Perm st.cmds → commandLines st2 = commandLines st) := by
  refine ⟨rfl, sortStrings_perm _, (sortStrings_perm _).nodup_iff.mpr h,
    sortStrings_strict _ h, ?_, ?_⟩
  · intro n c hmem
    unfold description
    rw [lookup_eq_some_of_mem st.cmds n c h hmem]
    cases hd : c.cmd.Describe <;> simp [hd]
  · intro st2 hp
    have hd2 : (st2.cmds.map Prod.fst).Nodup := (hp.map Prod.fst).nodup_iff.mpr h
    have hl : commandLine st2 = commandLine st := by
      funext n
      unfold commandLine description
      rw [lookup_perm st2.cmds st.cmds hp hd2 n]
    unfold commandLines names
    rw [hl, sortStrings_of_perm _ _ (hp.map Prod.fst)]

/-- C7, on a host that registers test, build and clean in this order: the
names are listed as build, clean, test. -/
theorem Usage_command_listing_witness :
    (names threeHost).Nodup ∧
    (sortStrings (names threeHost)).Pairwise stringLess ∧
    commandLines threeHost =
      ["  build: No description available.\n", "  clean: remove build products\n",
       "  test: No description available.\n"] :=
  ⟨by decide, (Usage_command_listing sampleLib threeHost "prog" (by decide)).2.2.2.1,
    by decide⟩

/-! ## Function flags -/

/-- No run of `Main` invokes the function of a function flag: `Main` does not
read `funcFlags`. -/
theorem Main_trace_no_callback (lib : Lib) (st : State) (prog : String)
    (argv : List String) (f : Nat) : Event.Callback f ∉ (Main lib st prog argv).trace := by
  by_cases hlen : st.cmds.length = 0
  · simp [Main, hlen]
  · simp only [Main, hlen, if_false, Usage]
    cases (st.Globals.Parse lib argv).err with
    | some err => simp
    | none =>
      simp only
      cases (st.Globals.Parse lib argv).fs.Args with
      | nil => simp
      | cons cmdname rest =>
        simp only
        cases st.cmds.lookup cmdname with
        | none => simp
        | some c =>
          simp only
          cases (c.flags.Parse lib rest).err with
          | some e => simp
          | none =>
            simp only
            cases c.cmd.Run (st.Globals.Parse lib argv).fs (c.flags.Parse lib rest).fs
              (c.flags.Parse lib rest).fs.Args <;> simp

set_option maxRecDepth 8192 in
/-- C5, on the code: on a host that declares the version flag and registers
build, the arguments -version, build set the flag (its field `v` is true after
the global parse), yet `Main` runs build and returns without calling the
function of the flag and without exit; with -version alone it reports that no
command was specified; and no run of `Main` ever calls the function. -/
theorem Main_ignores_funcFlags :
    (VersionFlag buildHost 0).isSome = true ∧
    versionHost.funcFlags = [{ flag := "version", f := 0 }] ∧
    funcFlag.v (versionHost.Globals.Parse sampleLib ["-version", "build"]).fs
      { flag := "version", f := 0 } = true ∧
    Main sampleLib versionHost "prog" ["-version", "build"] =
      { outcome := .returned, stderr := "", trace := [.Run "build" []] } ∧
    Main sampleLib versionHost "prog" ["-version"] =
      { outcome := .exited 2,
        stderr := "No command specified.\n\n" ++ UsageText sampleLib versionHost "prog",
        trace := [] } ∧
    ∀ (argv : List String) (f : Nat),
      Event.Callback f ∉ (Main sampleLib versionHost "prog" argv).trace :=
  ⟨by decide, by decide, by decide, by decide, by decide,
    fun argv f => Main_trace_no_callback sampleLib versionHost "prog" argv f⟩

end cmdmain
